/-
Verification development for the dicfg configuration reader
(src/dicfg/reader.py).

The Python module is shallowly embedded below:
- Parsed configuration values (the result of the JSON/YAML collaborators)
  become the inductive type `CVal`; Python dicts become association lists
  with unique keys (lookup returns the first match, assignment replaces in
  place or appends, exactly as Python dict assignment behaves).
- The filesystem collaborator becomes a finite map from path strings to
  already-parsed file contents (`FileSystem`); an empty file parses to
  `CVal.vnone`, mirroring `yaml.load` returning `None`.
- Fallible operations return `Except CErr`, with one error constructor per
  Python exception the reader can raise.
- The deep-merge engine lives in `dicfg/config.py`, which is not part of
  the sources provided; it is modelled from the specification (section 4.1)
  and marked as such in its doc comment.
- `deepcopy` is the identity on pure values, so it is not represented;
  the in-place mutation performed by `_include_configs_dict` is represented
  by explicit state passing (`sourceAfterFuse` returns the state of the
  caller's mapping after `_fuse_config` returns).
- Chained file inclusion can diverge on cyclic files, so `includeConfigs`
  takes fuel that is consumed only when a file reference is expanded.
-/
import Mathlib

namespace Dicfg

/-- A parsed configuration value: scalars (null, bool, int, rational for
floats), sequences, and string-keyed mappings, as produced by the JSON/YAML
reader collaborators for `dicfg/reader.py`. -/
inductive CVal where
  | vnone : CVal
  | vbool : Bool → CVal
  | vint : Int → CVal
  | vrat : Rat → CVal
  | vstr : String → CVal
  | vseq : List CVal → CVal
  | vdict : List (String × CVal) → CVal

/-- Errors raised by the reader, one constructor per Python exception:
`ConfigNotFoundError`, `FileNotFoundError` from `open`, `KeyError` on the
`_FILE_READERS` table, `KeyError` on a missing named section, `TypeError`
when indexing a non-dict, `AttributeError` when `.get` is called on a
non-dict, `ValueError`/`SyntaxError` escaping `ast.literal_eval`, the
unpacking `ValueError` in `_read_cli`, `IndexError` on `keys[0]`, and fuel
exhaustion for cyclic include chains. -/
inductive CErr where
  | configNotFound : String → CErr
  | fileNotFound : String → CErr
  | unsupportedFormat : String → CErr
  | missingKey : String → CErr
  | typeError : CErr
  | attrError : CErr
  | evalError : String → CErr
  | unpackError : String → CErr
  | indexError : CErr
  | outOfFuel : CErr
deriving DecidableEq

theorem except_bind_ok {ε α β : Type} (x : α) (f : α → Except ε β) :
    Except.bind (Except.ok x) f = f x := rfl

theorem except_bind_error {ε α β : Type} (e : ε) (f : α → Except ε β) :
    Except.bind (Except.error e : Except ε α) f = Except.error e := rfl

theorem except_map_ok {ε α β : Type} (x : α) (f : α → β) :
    Except.map f (Except.ok x : Except ε α) = Except.ok (f x) := rfl

theorem except_map_error {ε α β : Type} (e : ε) (f : α → β) :
    Except.map f (Except.error e : Except ε α) = Except.error e := rfl

/-- Python `dict` lookup on an association list: first matching key. -/
def lookupD : List (String × CVal) → String → Option CVal
  | [], _ => none
  | (k1, v1) :: rest, k => if k1 = k then some v1 else lookupD rest k

/-- Python `dict` assignment `d[k] = v`: replaces the value in place when
the key is present, appends a new entry otherwise. -/
def insertD : List (String × CVal) → String → CVal → List (String × CVal)
  | [], k, v => [(k, v)]
  | (k1, v1) :: rest, k, v =>
    if k1 = k then (k, v) :: rest else (k1, v1) :: insertD rest k v

mutual

/-- Modelled from the spec: the two-source step of the deep-merge engine of
`dicfg/config.py` (spec section 4.1), which is not among the provided
sources.  When both sides are mappings they merge recursively; otherwise
the later source's value replaces the earlier one. -/
def mergeVal : CVal → CVal → CVal
  | CVal.vdict a, CVal.vdict b => CVal.vdict (mergeEntries a b)
  | _, b => b
termination_by a b => sizeOf b

/-- Modelled from the spec: the accumulator loop of the deep-merge engine
(spec section 4.1).  Entries of the later source are processed left to
right; a key absent from the accumulator is adopted, a key present on both
sides goes through `mergeVal`. -/
def mergeEntries : List (String × CVal) → List (String × CVal) → List (String × CVal)
  | acc, [] => acc
  | acc, (k, v) :: rest =>
    let nv := match lookupD acc k with
      | some w => mergeVal w v
      | none => v
    mergeEntries (insertD acc k nv) rest
termination_by acc b => sizeOf b

end

/-- Modelled from the spec: `merge(*configs)` of `dicfg/config.py` (spec
section 4.1): fold the sources left to right into an accumulator that
starts as the empty mapping.  `.cast()` of the merged handle produces the
plain value, which here is the value itself. -/
def mergeAll (configs : List CVal) : CVal :=
  configs.foldl mergeVal (CVal.vdict [])

/-- The `.get(key, default)` method of the merged-config handle
(used by `_read_cli` as `cli_config.get(self._name, {})`). -/
def cvalGet (c : CVal) (k : String) (dflt : CVal) : CVal :=
  match c with
  | CVal.vdict m => (lookupD m k).getD dflt
  | _ => dflt

/-- Splitting on a single-character separator, with the semantics of
Python `str.split(sep)` for a non-empty separator (empty pieces are
preserved, the empty string yields one empty piece). -/
def splitOnChar (sep : Char) : List Char → List (List Char)
  | [] => [[]]
  | c :: rest =>
    let r := splitOnChar sep rest
    if c = sep then [] :: r
    else
      match r with
      | [] => [[c]]
      | g :: gs => (c :: g) :: gs

/-- `pathlib` join `d / n` for a relative name `n`: `Path()` and `Path(".")`
contribute no components, any other directory is prefixed with a slash. -/
def joinPath (d n : String) : String :=
  if d = "" ∨ d = "." then n else d ++ "/" ++ n

/-- Reassemble path components with slashes. -/
def joinSlash : List (List Char) → String
  | [] => ""
  | [p] => String.mk p
  | p :: q :: rest => String.mk p ++ "/" ++ joinSlash (q :: rest)

/-- `pathlib` `Path(p).parent`: the path without its last component,
`"."` when there is no directory part. -/
def parentPath (p : String) : String :=
  let parts := splitOnChar (Char.ofNat 47) p.toList
  if parts.length ≤ 1 then "." else joinSlash parts.dropLast

/-- `pathlib` `Path(s).suffix`: the extension of the last component,
taken from its last dot, which must be neither the first nor the last
character of the component; empty otherwise. -/
def pathSuffix (s : String) : String :=
  let cs := (splitOnChar (Char.ofNat 47) s.toList).getLastD []
  match ((List.range cs.length).filter (fun i => cs.getD i ' ' = '.')).getLast? with
  | some i => if 0 < i && i + 1 < cs.length then String.mk (cs.drop i) else ""
  | none => ""

/-- The keys of the `_FILE_READERS` table. -/
def fileReaderExts : List String := [".json", ".yml", ".yaml"]

/-- The filesystem collaborator: a finite map from path strings to the
parsed contents the JSON/YAML readers would return for that file
(`CVal.vnone` for an empty file). -/
structure FileSystem where
  files : List (String × CVal)

/-- The parsed content of the file at `p`, when it exists. -/
def fsLookup (fs : FileSystem) (p : String) : Option CVal :=
  lookupD fs.files p

/-- `Path(p).exists()` for the modelled filesystem. -/
def fsExists (fs : FileSystem) (p : String) : Bool :=
  (fsLookup fs p).isSome

/-- `_search_config`: walk the search paths in order, skipping `None`
entries, and return the first directory-joined path that exists; raise
`ConfigNotFoundError` with the requested name when none does. -/
def searchConfig (fs : FileSystem) (name : String) : List (Option String) → Except CErr String
  | [] => Except.error (CErr.configNotFound name)
  | none :: rest => searchConfig fs name rest
  | some d :: rest =>
    let p := joinPath d name
    if fsExists fs p then Except.ok p else searchConfig fs name rest

mutual

/-- `_include_configs` (the `singledispatch` function together with its
`str` registration): a string whose path suffix is a `_FILE_READERS` key is
resolved via `_search_config`, the found file is parsed raw (no `None`
normalization here) and recursively included; every other scalar and every
sequence is returned unchanged; a dict goes through `includeEntries`.
Fuel is consumed exactly when a file reference is expanded, the one step
that can chain unboundedly. -/
def includeConfigs (fs : FileSystem) (sp : List (Option String)) : Nat → CVal → Except CErr CVal
  | fuel, CVal.vstr s =>
    if pathSuffix s ∈ fileReaderExts then
      match fuel with
      | 0 => Except.error CErr.outOfFuel
      | Nat.succ f =>
        match searchConfig fs s sp with
        | Except.error e => Except.error e
        | Except.ok p => includeConfigs fs sp f ((fsLookup fs p).getD CVal.vnone)
    else Except.ok (CVal.vstr s)
  | fuel, CVal.vdict m => (includeEntries fs sp fuel m).map CVal.vdict
  | _, c => Except.ok c
termination_by fuel c => (fuel, sizeOf c)

/-- `_include_configs_dict`: rewrite every value of the dict through
`_include_configs`, preserving keys and their order. -/
def includeEntries (fs : FileSystem) (sp : List (Option String)) : Nat → List (String × CVal) → Except CErr (List (String × CVal))
  | _, [] => Except.ok []
  | fuel, (k, v) :: rest =>
    (includeConfigs fs sp fuel v).bind fun v2 =>
      (includeEntries fs sp fuel rest).bind fun rest2 =>
        Except.ok ((k, v2) :: rest2)
termination_by fuel l => (fuel, sizeOf l)

end

/-- The seed mapping of `_fuse_config`: the dict comprehension
`{key: deepcopy(config.get("default", {})) for key in context_keys}`
(`deepcopy` is the identity on pure values). -/
def seedList (contextKeys : List String) (dflt : CVal) : List (String × CVal) :=
  contextKeys.foldl (fun acc k => insertD acc k dflt) []

/-- `config.get("default", {})` of the include-expanded config. -/
def defaultOf (m : List (String × CVal)) : CVal :=
  (lookupD m "default").getD (CVal.vdict [])

/-- `ConfigReader._fuse_config`: include-expand the config, seed every
context key with the `"default"` subtree, and merge the seed with the
config.  A non-dict include result makes `config.get` raise
`AttributeError`. -/
def fuseConfig (fs : FileSystem) (sp : List (Option String)) (fuel : Nat) (contextKeys : List String) (config : CVal) : Except CErr CVal :=
  (includeConfigs fs sp fuel config).bind fun c =>
    match c with
    | CVal.vdict m =>
      Except.ok (mergeVal (CVal.vdict (seedList contextKeys (defaultOf m))) (CVal.vdict m))
    | _ => Except.error CErr.attrError

/-- The state of the caller's mapping after `_fuse_config` returns:
`_include_configs_dict` rewrites the entries of the dict it is given in
place and returns that same object, so a dict argument ends up equal to its
include expansion, while non-dict arguments are never mutated (the seed is
built from deep copies and the merge engine is pure per spec 4.1). -/
def sourceAfterFuse (fs : FileSystem) (sp : List (Option String)) (fuel : Nat) (config : CVal) : Except CErr CVal :=
  match config with
  | CVal.vdict _ => includeConfigs fs sp fuel config
  | _ => Except.ok config

/-- The single-quote character, written by code point to keep the source
ASCII-clean. -/
def squote : Char := Char.ofNat 39

/-- Errors of the literal-evaluation collaborator: Python `ValueError`
(well-formed expression that is not a literal, e.g. a bare name) and
`SyntaxError` (text that does not parse as an expression at all). -/
inductive LitErr where
  | valErr : LitErr
  | synErr : LitErr
deriving DecidableEq

/-- Integer literal: an optional minus sign followed by one or more
digits. -/
def isIntLit (s : String) : Bool :=
  match s.toList with
  | [] => false
  | c :: rest =>
    if c = Char.ofNat 45 then !rest.isEmpty && rest.all Char.isDigit
    else (c :: rest).all Char.isDigit

/-- Decimal digits to a natural number. -/
def digitsToNat : List Char → Nat → Nat
  | [], acc => acc
  | c :: rest, acc => digitsToNat rest (acc * 10 + (c.toNat - 48))

/-- The integer denoted by an integer literal. -/
def intValOf (s : String) : Int :=
  match s.toList with
  | [] => 0
  | c :: rest =>
    if c = Char.ofNat 45 then -(digitsToNat rest 0 : Int)
    else (digitsToNat (c :: rest) 0 : Int)

/-- Single-quoted string literal with no interior quote. -/
def isStrLit (s : String) : Bool :=
  let cs := s.toList
  decide (2 ≤ cs.length) && cs.headD ' ' = squote && cs.getLastD ' ' = squote
    && ((cs.drop 1).dropLast.all (fun c => c ≠ squote))

/-- A bare Python name: letter or underscore, then letters, digits or
underscores. -/
def isNameLit (s : String) : Bool :=
  match s.toList with
  | [] => false
  | c :: rest =>
    (c.isAlpha || c = Char.ofNat 95)
      && rest.all (fun d => d.isAlpha || d.isDigit || d = Char.ofNat 95)

/-- Modelled from the spec: the best-effort literal evaluator collaborator
(`ast.literal_eval`) used on CLI values (spec sections 4.4 and 9), which is
outside the provided sources.  The modelled fragment covers the literals
the spec names for the CLI path: the keyword constants, integers, and
single-quoted strings evaluate; a bare name is a well-formed expression
whose evaluation raises `ValueError`; anything else (for instance text with
internal whitespace or a stray quote) fails to parse and raises
`SyntaxError`. -/
def litEval (s : String) : Except LitErr CVal :=
  if s = "True" then Except.ok (CVal.vbool true)
  else if s = "False" then Except.ok (CVal.vbool false)
  else if s = "None" then Except.ok CVal.vnone
  else if isIntLit s then Except.ok (CVal.vint (intValOf s))
  else if isStrLit s then Except.ok (CVal.vstr (String.mk ((s.toList.drop 1).dropLast)))
  else if isNameLit s then Except.error LitErr.valErr
  else Except.error LitErr.synErr

/-- `_create_dict_from_keys`: one key left means evaluate the value —
`ast.literal_eval` first, and only on `ValueError` retry with the value
wrapped in single quotes; any `SyntaxError` (from either attempt)
propagates.  More than one key nests recursively; the unreachable empty
key list would raise `IndexError` on `keys[0]`. -/
def createDictFromKeys : List String → String → Except CErr CVal
  | [], _ => Except.error CErr.indexError
  | [k], value =>
    match litEval value with
    | Except.ok v => Except.ok (CVal.vdict [(k, v)])
    | Except.error LitErr.valErr =>
      match litEval (String.singleton squote ++ value ++ String.singleton squote) with
      | Except.ok v => Except.ok (CVal.vdict [(k, v)])
      | Except.error _ => Except.error (CErr.evalError value)
    | Except.error LitErr.synErr => Except.error (CErr.evalError value)
  | k :: k2 :: rest, value =>
    match createDictFromKeys (k2 :: rest) value with
    | Except.error e => Except.error e
    | Except.ok sub => Except.ok (CVal.vdict [(k, sub)])

/-- The loop of `_read_cli`: arguments without `=` are skipped; an argument
with `=` is split, and `keys, value = arg.split("=")` raises an unpacking
`ValueError` unless the split has exactly two parts; the dotted key path
builds a nested single-path dict. -/
def cliDicts : List String → Except CErr (List CVal)
  | [] => Except.ok []
  | arg :: rest =>
    if (arg.toList).contains (Char.ofNat 61) then
      match (splitOnChar (Char.ofNat 61) arg.toList).map String.mk with
      | [keys, value] =>
        match createDictFromKeys ((splitOnChar (Char.ofNat 46) keys.toList).map String.mk) value with
        | Except.error e => Except.error e
        | Except.ok d =>
          match cliDicts rest with
          | Except.error e => Except.error e
          | Except.ok ds => Except.ok (d :: ds)
      | _ => Except.error (CErr.unpackError arg)
    else cliDicts rest

/-- `ConfigReader._read_cli`: merge the per-token dicts and filter the
result down to this reader's name, an absent name yielding the empty
mapping. -/
def readCli (name : String) (args : List String) : Except CErr CVal :=
  match cliDicts args with
  | Except.error e => Except.error e
  | Except.ok ds => Except.ok (cvalGet (mergeAll ds) name (CVal.vdict []))

/-- The state a constructed `ConfigReader` carries: the fields `__init__`
stores (the presets folder name is only used to derive
`_presets_folder`). -/
structure ConfigReader where
  name : String
  mainConfigPath : String
  defaultKey : String
  contextKeys : List String
  searchPaths : List String
  configsFolder : String
  presetsFolder : String

/-- `ConfigReader.__init__`: fail with `ConfigNotFoundError` when the main
config path does not exist, otherwise store the name, the path, the default
key, the context keys, the search paths, and the configs and presets
folders derived from the main config path. -/
def mkConfigReader (fs : FileSystem) (name mainConfigPath presetsFolderName defaultKey : String) (contextKeys searchPaths : List String) : Except CErr ConfigReader :=
  if fsExists fs mainConfigPath then
    Except.ok
      { name := name
        mainConfigPath := mainConfigPath
        defaultKey := defaultKey
        contextKeys := contextKeys
        searchPaths := searchPaths
        configsFolder := parentPath mainConfigPath
        presetsFolder := joinPath (parentPath mainConfigPath) presetsFolderName }
  else Except.error (CErr.configNotFound mainConfigPath)

/-- `ConfigReader._read`: look the suffix up in `_FILE_READERS` (a missing
suffix raises `KeyError`), open and parse the file (a missing file raises
`FileNotFoundError`), and normalize a `None` content to the empty dict. -/
def readStructured (fs : FileSystem) (p : String) : Except CErr CVal :=
  if pathSuffix p ∈ fileReaderExts then
    match fsLookup fs p with
    | some CVal.vnone => Except.ok (CVal.vdict [])
    | some c => Except.ok c
    | none => Except.error (CErr.fileNotFound p)
  else Except.error (CErr.unsupportedFormat (pathSuffix p))

/-- The `user_config` argument of `read`: absent (`None`), an
already-parsed dict, or a file path. -/
inductive UserConfig where
  | absent : UserConfig
  | parsed : List (String × CVal) → UserConfig
  | path : String → UserConfig

/-- `ConfigReader._read_user_config`: a parsed dict is indexed by the
reader's name (`KeyError` when absent), `None` becomes the empty dict, and
a path is read with `_read` and then indexed by the name (`TypeError` when
the file's content is not a dict). -/
def readUserConfig (name : String) (fs : FileSystem) : UserConfig → Except CErr CVal
  | UserConfig.parsed m =>
    match lookupD m name with
    | some v => Except.ok v
    | none => Except.error (CErr.missingKey name)
  | UserConfig.absent => Except.ok (CVal.vdict [])
  | UserConfig.path p =>
    match readStructured fs p with
    | Except.error e => Except.error e
    | Except.ok (CVal.vdict m) =>
      match lookupD m name with
      | some v => Except.ok v
      | none => Except.error (CErr.missingKey name)
    | Except.ok _ => Except.error CErr.typeError

/-- `ConfigReader._set_search_paths`: `Path()` (the current working
directory, contributing no components on join), the user-config directory
slot (possibly `None`), the configs folder, the presets folder, then the
caller-supplied search paths from construction. -/
def setSearchPaths (userConfigSearchPath : Option String) (configsFolder presetsFolder : String) (extra : List String) : List (Option String) :=
  some "" :: userConfigSearchPath :: some configsFolder :: some presetsFolder :: extra.map some

/-- The search-path list a `read` call builds: the user-config slot is the
parent directory of the user config only when it was given as a path. -/
def readSearchPaths (r : ConfigReader) (uc : UserConfig) : List (Option String) :=
  let ucp : Option String :=
    match uc with
    | UserConfig.path p => some (parentPath p)
    | _ => none
  setSearchPaths ucp r.configsFolder r.presetsFolder r.searchPaths

/-- `ConfigReader.read`: build the search paths, read the main config, the
presets, the user config and the CLI overrides in that order, fuse each
source with the context keys and search paths, and merge the fused sources
in precedence order (`.cast()` of the merged handle is the value itself).
`sys.argv[1:]` is passed explicitly as `argv`. -/
def readerRead (r : ConfigReader) (fs : FileSystem) (argv : List String) (uc : UserConfig) (presets : List String) (fuel : Nat) : Except CErr CVal := do
  let sp := readSearchPaths r uc
  let selfConfig ← readStructured fs r.mainConfigPath
  let presetConfigs ← presets.mapM (fun p => readStructured fs (joinPath r.presetsFolder p))
  let userConfig ← readUserConfig r.name fs uc
  let cliConfig ← readCli r.name argv
  let configs := selfConfig :: (presetConfigs ++ [userConfig, cliConfig])
  let fused ← configs.mapM (fuseConfig fs sp fuel r.contextKeys)
  pure (mergeAll fused)

/-- Whether a value is a mapping (`isinstance(value, dict)`). -/
def isDict : CVal → Bool
  | CVal.vdict _ => true
  | _ => false

/-- The Python-dict representation invariant at the top level: an actual
`dict` never holds two entries with the same key. -/
def topKeysNodup : CVal → Prop
  | CVal.vdict m => (m.map Prod.fst).Nodup
  | _ => True

theorem lookupD_insertD_self (a : List (String × CVal)) (k : String) (v : CVal) :
    lookupD (insertD a k v) k = some v := by
  induction a with
  | nil => simp [insertD, lookupD]
  | cons p rest ih =>
    obtain ⟨k1, v1⟩ := p
    by_cases h : k1 = k
    · simp [insertD, h, lookupD]
    · simp [insertD, h, lookupD, ih]

theorem lookupD_insertD_ne (a : List (String × CVal)) (k1 k : String) (v : CVal)
    (h : k1 ≠ k) : lookupD (insertD a k1 v) k = lookupD a k := by
  induction a with
  | nil => simp [insertD, lookupD, h]
  | cons p rest ih =>
    obtain ⟨k2, v2⟩ := p
    by_cases h2 : k2 = k1
    · simp [insertD, h2, lookupD, h]
    · simp only [insertD, if_neg h2]
      by_cases h3 : k2 = k
      · simp [lookupD, h3]
      · simp [lookupD, h3, ih]

theorem lookupD_eq_none_of_not_mem (a : List (String × CVal)) (k : String)
    (h : k ∉ a.map Prod.fst) : lookupD a k = none := by
  induction a with
  | nil => rfl
  | cons p rest ih =>
    obtain ⟨k1, v1⟩ := p
    simp only [List.map_cons, List.mem_cons, not_or] at h
    rw [lookupD, if_neg (fun he => h.1 he.symm)]
    exact ih h.2

theorem not_mem_of_lookupD_eq_none (a : List (String × CVal)) (k : String)
    (h : lookupD a k = none) : k ∉ a.map Prod.fst := by
  induction a with
  | nil => simp
  | cons p rest ih =>
    obtain ⟨k1, v1⟩ := p
    by_cases h1 : k1 = k
    · simp [lookupD, h1] at h
    · simp only [lookupD, if_neg h1] at h
      simp only [List.map_cons, List.mem_cons, not_or]
      exact ⟨fun hk => h1 hk.symm, ih h⟩

theorem insertD_fresh (a : List (String × CVal)) (k : String) (v : CVal)
    (h : lookupD a k = none) : insertD a k v = a ++ [(k, v)] := by
  induction a with
  | nil => rfl
  | cons p rest ih =>
    obtain ⟨k1, v1⟩ := p
    by_cases h1 : k1 = k
    · simp [lookupD, h1] at h
    · simp only [lookupD, if_neg h1] at h
      simp [insertD, h1, ih h]

theorem map_fst_insertD_mem (a : List (String × CVal)) (k : String) (v : CVal)
    (h : k ∈ a.map Prod.fst) : (insertD a k v).map Prod.fst = a.map Prod.fst := by
  induction a with
  | nil => simp at h
  | cons p rest ih =>
    obtain ⟨k1, v1⟩ := p
    by_cases h1 : k1 = k
    · simp [insertD, h1]
    · simp only [List.map_cons, List.mem_cons] at h
      rcases h with h | h

      · exact absurd h.symm h1
      · simp [insertD, h1, ih h]

theorem map_fst_insertD_not_mem (a : List (String × CVal)) (k : String) (v : CVal)
    (h : k ∉ a.map Prod.fst) : (insertD a k v).map Prod.fst = a.map Prod.fst ++ [k] := by
  have := insertD_fresh a k v (lookupD_eq_none_of_not_mem a k h)
  simp [this]

theorem nodup_map_fst_insertD (a : List (String × CVal)) (k : String) (v : CVal)
    (h : (a.map Prod.fst).Nodup) : ((insertD a k v).map Prod.fst).Nodup := by
  by_cases hm : k ∈ a.map Prod.fst
  · rw [map_fst_insertD_mem a k v hm]; exact h
  · rw [map_fst_insertD_not_mem a k v hm]
    simp [List.nodup_append, h, hm]

theorem lookupD_mergeEntries_not_mem (a b : List (String × CVal)) (k : String)
    (h : k ∉ b.map Prod.fst) : lookupD (mergeEntries a b) k = lookupD a k := by
  induction b generalizing a with
  | nil => simp [mergeEntries]
  | cons p rest ih =>
    obtain ⟨k1, v1⟩ := p
    simp only [List.map_cons, List.mem_cons, not_or] at h
    rw [mergeEntries, ih _ h.2, lookupD_insertD_ne _ _ _ _ (fun hk => h.1 hk.symm)]

theorem nodup_map_fst_mergeEntries (a b : List (String × CVal))
    (h : (a.map Prod.fst).Nodup) : ((mergeEntries a b).map Prod.fst).Nodup := by
  induction b generalizing a with
  | nil => simpa [mergeEntries] using h
  | cons p rest ih =>
    obtain ⟨k1, v1⟩ := p
    rw [mergeEntries]
    exact ih _ (nodup_map_fst_insertD _ _ _ h)

theorem mergeEntries_append_of_disjoint (a b : List (String × CVal))
    (hb : (b.map Prod.fst).Nodup)
    (h : ∀ k ∈ b.map Prod.fst, lookupD a k = none) :
    mergeEntries a b = a ++ b := by
  induction b generalizing a with
  | nil => simp [mergeEntries]
  | cons p rest ih =>
    obtain ⟨k1, v1⟩ := p
    simp only [List.map_cons, List.nodup_cons] at hb
    have ha1 : lookupD a k1 = none := h k1 (by simp)
    rw [mergeEntries]
    simp only [ha1]
    rw [insertD_fresh a k1 v1 ha1]
    have hrest : ∀ k ∈ rest.map Prod.fst, lookupD (a ++ [(k1, v1)]) k = none := by
      intro k hk
      have hka : lookupD a k = none := h k (by simp [hk])
      have hkne : k1 ≠ k := fun he => hb.1 (he ▸ hk)
      clear ih h hb ha1
      induction a with
      | nil => simp [lookupD, hkne]
      | cons q resta iha =>
        obtain ⟨k2, v2⟩ := q
        rw [List.cons_append]
        by_cases h2 : k2 = k
        · rw [lookupD, if_pos h2] at hka
          exact Option.noConfusion hka
        · rw [lookupD, if_neg h2] at hka
          rw [lookupD, if_neg h2]
          exact iha hka
    rw [ih _ hb.2 hrest, List.append_assoc]
    rfl

theorem mergeEntries_nil_left (b : List (String × CVal))
    (hb : (b.map Prod.fst).Nodup) : mergeEntries [] b = b := by
  have := mergeEntries_append_of_disjoint [] b hb (fun k _ => rfl)
  simpa using this

theorem mergeVal_empty_left (c : CVal) (h : topKeysNodup c) :
    mergeVal (CVal.vdict []) c = c := by
  cases c with
  | vdict m => rw [mergeVal, mergeEntries_nil_left m h]
  | vnone => simp [mergeVal]
  | vbool b => simp [mergeVal]
  | vint n => simp [mergeVal]
  | vrat q => simp [mergeVal]
  | vstr s => simp [mergeVal]
  | vseq xs => simp [mergeVal]

theorem mergeVal_not_both_dict (w v : CVal)
    (h : isDict w = false ∨ isDict v = false) : mergeVal w v = v := by
  cases w <;> cases v <;> first
    | (simp [mergeVal]
       done)
    | simp [isDict] at h

theorem topKeysNodup_mergeVal (x c : CVal) (hx : topKeysNodup x) (hc : topKeysNodup c) :
    topKeysNodup (mergeVal x c) := by
  cases x <;> cases c <;> first
    | (rw [mergeVal]
       exact nodup_map_fst_mergeEntries _ _ hx)
    | simpa [mergeVal] using hc

theorem lookupD_mergeEntries_found (a b : List (String × CVal)) (k : String) (v : CVal)
    (hb : (b.map Prod.fst).Nodup)
    (hv : lookupD b k = some v)
    (ha : ∀ w, lookupD a k = some w → isDict w = false ∨ isDict v = false) :
    lookupD (mergeEntries a b) k = some v := by
  induction b generalizing a with
  | nil => simp [lookupD] at hv
  | cons p rest ih =>
    obtain ⟨k1, v1⟩ := p
    simp only [List.map_cons, List.nodup_cons] at hb
    by_cases h1 : k1 = k
    · subst h1
      simp [lookupD] at hv
      subst hv
      rw [mergeEntries]
      cases hw : lookupD a k1 with
      | none =>
        simp only [hw]
        rw [lookupD_mergeEntries_not_mem _ rest k1 hb.1, lookupD_insertD_self]
      | some w =>
        simp only [hw]
        rw [mergeVal_not_both_dict w v1 (ha w hw)]
        rw [lookupD_mergeEntries_not_mem _ rest k1 hb.1, lookupD_insertD_self]
    · simp only [lookupD, if_neg h1] at hv
      rw [mergeEntries]
      refine ih _ hb.2 hv ?_
      intro w hw
      rw [lookupD_insertD_ne _ _ _ _ h1] at hw
      exact ha w hw

/-- A configuration value with no file reference at any position
`_include_configs` inspects: no string with a `_FILE_READERS` suffix at the
top level or among (nested) dict values.  Sequences qualify wholesale
because inclusion never recurses into them. -/
inductive NoFileRefs : CVal → Prop where
  | vnone : NoFileRefs CVal.vnone
  | vbool (b : Bool) : NoFileRefs (CVal.vbool b)
  | vint (n : Int) : NoFileRefs (CVal.vint n)
  | vrat (q : Rat) : NoFileRefs (CVal.vrat q)
  | vstr (s : String) (h : pathSuffix s ∉ fileReaderExts) : NoFileRefs (CVal.vstr s)
  | vseq (xs : List CVal) : NoFileRefs (CVal.vseq xs)
  | vdict (m : List (String × CVal)) (h : ∀ p ∈ m, NoFileRefs p.2) :
      NoFileRefs (CVal.vdict m)

theorem includeEntries_of_forall_ok (fs : FileSystem) (sp : List (Option String))
    (fuel : Nat) (m : List (String × CVal))
    (h : ∀ p ∈ m, includeConfigs fs sp fuel p.2 = Except.ok p.2) :
    includeEntries fs sp fuel m = Except.ok m := by
  induction m with
  | nil => rw [includeEntries]
  | cons p rest ih =>
    obtain ⟨k, v⟩ := p
    have h1 : includeConfigs fs sp fuel v = Except.ok v := h (k, v) (by simp)
    rw [includeEntries, h1, ih (fun q hq => h q (by simp [hq]))]
    rfl

theorem includeConfigs_noRefs (fs : FileSystem) (sp : List (Option String))
    (c : CVal) (h : NoFileRefs c) (fuel : Nat) :
    includeConfigs fs sp fuel c = Except.ok c := by
  induction h with
  | vnone => simp [includeConfigs]
  | vbool b => simp [includeConfigs]
  | vint n => simp [includeConfigs]
  | vrat q => simp [includeConfigs]
  | vstr s hs =>
    cases fuel with
    | zero => rw [includeConfigs.eq_1, if_neg hs]
    | succ f => rw [includeConfigs.eq_2, if_neg hs]
  | vseq xs =>
    exact includeConfigs.eq_4 fs sp fuel (CVal.vseq xs)
      (fun s h => by cases h) (fun m h => by cases h)
  | vdict m hm ih =>
    rw [includeConfigs, includeEntries_of_forall_ok fs sp fuel m ih]
    rfl

theorem searchConfig_skip_none (fs : FileSystem) (name : String)
    (pre post : List (Option String)) :
    searchConfig fs name (pre ++ none :: post) = searchConfig fs name (pre ++ post) := by
  induction pre with
  | nil => rw [List.nil_append, searchConfig, List.nil_append]
  | cons o rest ih =>
    cases o with
    | none => rw [List.cons_append, searchConfig, List.cons_append, searchConfig, ih]
    | some d =>
      rw [List.cons_append, searchConfig, List.cons_append, searchConfig, ih]

theorem searchConfig_not_found (fs : FileSystem) (name : String)
    (sp : List (Option String))
    (h : ∀ d, some d ∈ sp → fsExists fs (joinPath d name) = false) :
    searchConfig fs name sp = Except.error (CErr.configNotFound name) := by
  induction sp with
  | nil => rw [searchConfig]
  | cons o rest ih =>
    cases o with
    | none => rw [searchConfig]; exact ih (fun d hd => h d (by simp [hd]))
    | some d =>
      rw [searchConfig]
      simp only [h d (by simp), Bool.false_eq_true, if_false]
      exact ih (fun d2 hd2 => h d2 (by simp [hd2]))

theorem searchConfig_first_hit (fs : FileSystem) (name : String)
    (pre post : List (Option String)) (d : String)
    (hpre : ∀ d2, some d2 ∈ pre → fsExists fs (joinPath d2 name) = false)
    (hd : fsExists fs (joinPath d name) = true) :
    searchConfig fs name (pre ++ some d :: post) = Except.ok (joinPath d name) := by
  induction pre with
  | nil => rw [List.nil_append, searchConfig, if_pos hd]
  | cons o rest ih =>
    cases o with
    | none =>
      rw [List.cons_append, searchConfig]
      exact ih (fun d2 hd2 => hpre d2 (by simp [hd2]))
    | some d2 =>
      rw [List.cons_append, searchConfig]
      simp only [hpre d2 (by simp), Bool.false_eq_true, if_false]
      exact ih (fun d3 hd3 => hpre d3 (by simp [hd3]))

theorem lookupD_foldl_insert (ck : List String) (dflt : CVal)
    (acc : List (String × CVal)) (k : String) :
    lookupD (ck.foldl (fun a k2 => insertD a k2 dflt) acc) k
      = if k ∈ ck then some dflt else lookupD acc k := by
  induction ck generalizing acc with
  | nil => simp
  | cons k1 rest ih =>
    rw [List.foldl_cons, ih]
    by_cases hm : k ∈ rest
    · simp [hm]
    · by_cases he : k1 = k
      · subst he
        simp [hm, lookupD_insertD_self]
      · have : k ∉ k1 :: rest := by
          simp only [List.mem_cons, not_or]
          exact ⟨fun hk => he hk.symm, hm⟩
        simp only [hm, if_false, if_neg this]
        exact lookupD_insertD_ne acc k1 k dflt he

theorem lookupD_seedList (ck : List String) (dflt : CVal) (k : String)
    (h : k ∈ ck) : lookupD (seedList ck dflt) k = some dflt := by
  rw [seedList, lookupD_foldl_insert, if_pos h]

/-- C5: Merge is associative in the stated sense — merging the three
sources `(A, B, C)` equals merging `(merge(A,B), C)` — and on a key where
either side's value is not a mapping, the later source's value fully
replaces the earlier one.  The `topKeysNodup` hypotheses record the Python
dict invariant that a mapping never carries two entries with the same
key. -/
theorem claim5_merge_assoc_and_replacement :
    (∀ A B C : CVal, topKeysNodup A → topKeysNodup B →
      mergeAll [A, B, C] = mergeAll [mergeAll [A, B], C]) ∧
    (∀ (a b : List (String × CVal)) (k : String) (v : CVal),
      (b.map Prod.fst).Nodup →
      lookupD b k = some v →
      (∀ w, lookupD a k = some w → isDict w = false ∨ isDict v = false) →
      lookupD (mergeEntries a b) k = some v) := by
  constructor
  · intro A B C hA hB
    have hE : topKeysNodup (CVal.vdict []) := by simp [topKeysNodup]
    have h1 : topKeysNodup (mergeVal (CVal.vdict []) A) :=
      topKeysNodup_mergeVal _ _ hE hA
    have h2 : topKeysNodup (mergeVal (mergeVal (CVal.vdict []) A) B) :=
      topKeysNodup_mergeVal _ _ h1 hB
    simp only [mergeAll, List.foldl_cons, List.foldl_nil]
    rw [mergeVal_empty_left _ h2]
  · exact fun a b k v hb hv ha => lookupD_mergeEntries_found a b k v hb hv ha

/-- Witness for C5 at concrete inputs: `A = {"a": 1}`,
`B = {"a": [1, 2]}`, `C = {"b": 3}`; the scalar/sequence conflict on
`"a"` is resolved in favour of the later source. -/
theorem claim5_merge_assoc_and_replacement_witness :
    mergeAll [CVal.vdict [("a", CVal.vint 1)],
              CVal.vdict [("a", CVal.vseq [CVal.vint 1, CVal.vint 2])],
              CVal.vdict [("b", CVal.vint 3)]]
      = mergeAll [mergeAll [CVal.vdict [("a", CVal.vint 1)],
                            CVal.vdict [("a", CVal.vseq [CVal.vint 1, CVal.vint 2])]],
                  CVal.vdict [("b", CVal.vint 3)]]
    ∧ lookupD (mergeEntries [("a", CVal.vint 1)]
                            [("a", CVal.vseq [CVal.vint 1, CVal.vint 2])]) "a"
        = some (CVal.vseq [CVal.vint 1, CVal.vint 2]) := by
  constructor
  · exact claim5_merge_assoc_and_replacement.1 _ _ _
      (by simp [topKeysNodup]) (by simp [topKeysNodup])
  · refine claim5_merge_assoc_and_replacement.2 _ _ _ _ (by simp) rfl ?_
    intro w hw
    have hw2 : w = CVal.vint 1 := by simpa [lookupD] using hw.symm
    subst hw2
    left
    rfl

/-- C3: the stored `default_key` field is never consulted: `_fuse_config`
seeds from the literal string `"default"`, so two readers differing only in
`defaultKey` produce identical results on every `read` call. -/
theorem claim3_default_key_never_consulted :
    ∀ (r : ConfigReader) (k : String) (fs : FileSystem) (argv : List String)
      (uc : UserConfig) (presets : List String) (fuel : Nat),
      readerRead { r with defaultKey := k } fs argv uc presets fuel
        = readerRead r fs argv uc presets fuel := by
  intro r k fs argv uc presets fuel
  rfl

/-- C9: `ConfigReader.__init__` raises `ConfigNotFoundError` when the main
config path does not exist, before any `read` call is possible; when it
exists, construction succeeds and stores the configs folder (the main
config's parent) and the presets folder (that parent joined with the
presets folder name). -/
theorem claim9_construction_checks_main_config :
    ∀ (fs : FileSystem) (n mcp pfn dk : String) (ck sps : List String),
      (fsExists fs mcp = false →
        mkConfigReader fs n mcp pfn dk ck sps
          = Except.error (CErr.configNotFound mcp)) ∧
      (fsExists fs mcp = true →
        mkConfigReader fs n mcp pfn dk ck sps
          = Except.ok
              { name := n, mainConfigPath := mcp, defaultKey := dk,
                contextKeys := ck, searchPaths := sps,
                configsFolder := parentPath mcp,
                presetsFolder := joinPath (parentPath mcp) pfn }) := by
  intro fs n mcp pfn dk ck sps
  constructor
  · intro h
    rw [mkConfigReader, if_neg (by simp [h])]
  · intro h
    rw [mkConfigReader, if_pos h]

/-- Witness for C9: with a filesystem holding only `configs/config.yml`,
construction fails on a missing path and succeeds on the existing one,
deriving `configs` and `configs/presets`. -/
theorem claim9_construction_checks_main_config_witness :
    mkConfigReader (FileSystem.mk [("configs/config.yml", CVal.vdict [])])
        "model" "missing/config.yml" "presets" "default" [] []
      = Except.error (CErr.configNotFound "missing/config.yml")
    ∧ mkConfigReader (FileSystem.mk [("configs/config.yml", CVal.vdict [])])
        "model" "configs/config.yml" "presets" "default" [] []
      = Except.ok
          { name := "model", mainConfigPath := "configs/config.yml",
            defaultKey := "default", contextKeys := [], searchPaths := [],
            configsFolder := "configs", presetsFolder := "configs/presets" } := by
  constructor
  · exact (claim9_construction_checks_main_config
      (FileSystem.mk [("configs/config.yml", CVal.vdict [])])
      "model" "missing/config.yml" "presets" "default" [] []).1 rfl
  · exact (claim9_construction_checks_main_config
      (FileSystem.mk [("configs/config.yml", CVal.vdict [])])
      "model" "configs/config.yml" "presets" "default" [] []).2 rfl

/-- C10: the search paths of a `read` call are, in order: the current
working directory (`Path()`, contributing no components), the user-config
directory when the user config was given as a path (`None` otherwise), the
configs folder, the presets folder, then the construction-time search
paths; and `_search_config` skips a `None` entry wherever it sits. -/
theorem claim10_search_path_order :
    (∀ (r : ConfigReader) (p : String),
      readSearchPaths r (UserConfig.path p)
        = [some "", some (parentPath p), some r.configsFolder, some r.presetsFolder]
            ++ r.searchPaths.map some) ∧
    (∀ (r : ConfigReader) (m : List (String × CVal)),
      readSearchPaths r (UserConfig.parsed m)
        = [some "", none, some r.configsFolder, some r.presetsFolder]
            ++ r.searchPaths.map some) ∧
    (∀ r : ConfigReader,
      readSearchPaths r UserConfig.absent
        = [some "", none, some r.configsFolder, some r.presetsFolder]
            ++ r.searchPaths.map some) ∧
    (∀ (fs : FileSystem) (name : String) (pre post : List (Option String)),
      searchConfig fs name (pre ++ none :: post)
        = searchConfig fs name (pre ++ post)) :=
  ⟨fun r p => rfl, fun r m => rfl, fun r => rfl, searchConfig_skip_none⟩

theorem noRefs_nil : NoFileRefs (CVal.vdict []) :=
  NoFileRefs.vdict [] (by intro p hp; simp at hp)

theorem noRefs_cons (k : String) (v : CVal) (m : List (String × CVal))
    (hv : NoFileRefs v) (hm : NoFileRefs (CVal.vdict m)) :
    NoFileRefs (CVal.vdict ((k, v) :: m)) := by
  cases hm with
  | vdict m h =>
    refine NoFileRefs.vdict _ ?_
    intro p hp
    rcases List.mem_cons.mp hp with h1 | h2
    · subst h1; exact hv
    · exact h p h2

/-- The source mapping of the fusion example:
`{"default": {"lr": 0.1}, "train": {"lr": 0.01}}`. -/
def c1Source : CVal :=
  CVal.vdict [("default", CVal.vdict [("lr", CVal.vrat 0.1)]),
              ("train", CVal.vdict [("lr", CVal.vrat 0.01)])]

/-- The mapping the fusion example is claimed to produce:
`{"train": {"lr": 0.01}, "test": {"lr": 0.1}}`. -/
def c1Claimed : CVal :=
  CVal.vdict [("train", CVal.vdict [("lr", CVal.vrat 0.01)]),
              ("test", CVal.vdict [("lr", CVal.vrat 0.1)])]

/-- The mapping `_fuse_config` actually produces for the fusion example:
the source's own `"default"` entry survives the merge of the seed with the
source. -/
def c1Actual : CVal :=
  CVal.vdict [("train", CVal.vdict [("lr", CVal.vrat 0.01)]),
              ("test", CVal.vdict [("lr", CVal.vrat 0.1)]),
              ("default", CVal.vdict [("lr", CVal.vrat 0.1)])]

theorem c1Source_noRefs : NoFileRefs c1Source :=
  noRefs_cons _ _ _
    (noRefs_cons _ _ _ (NoFileRefs.vrat _) noRefs_nil)
    (noRefs_cons _ _ _
      (noRefs_cons _ _ _ (NoFileRefs.vrat _) noRefs_nil) noRefs_nil)

/-- C1 counterexample: fusing
`{"default": {"lr": 0.1}, "train": {"lr": 0.01}}` with context keys
`("train", "test")` does not yield exactly
`{"train": {"lr": 0.01}, "test": {"lr": 0.1}}` — the result also retains
the `"default"` entry of the source, because `_fuse_config` returns
`merge(seed, config)` and the seed never removes `"default"` from the
config. -/
theorem claim1_fusion_example_counterexample :
    fuseConfig (FileSystem.mk []) [] 1 ["train", "test"] c1Source
      = Except.ok c1Actual
    ∧ c1Actual ≠ c1Claimed := by
  constructor
  · have hinc : includeConfigs (FileSystem.mk []) [] 1 c1Source
        = Except.ok (CVal.vdict [("default", CVal.vdict [("lr", CVal.vrat 0.1)]),
                                 ("train", CVal.vdict [("lr", CVal.vrat 0.01)])]) :=
      includeConfigs_noRefs (FileSystem.mk []) [] c1Source c1Source_noRefs 1
    simp only [fuseConfig, hinc, except_bind_ok]
    rw [mergeVal]
    simp [seedList, defaultOf, insertD, lookupD, mergeEntries, mergeVal, c1Actual]
  · simp [c1Actual, c1Claimed]

/-- C1 (amended): fusing the source
`{"default": {"lr": 0.1}, "train": {"lr": 0.01}}` with context keys
`("train", "test")` yields
`{"train": {"lr": 0.01}, "test": {"lr": 0.1}, "default": {"lr": 0.1}}`:
each declared context key is seeded with a (deep copy of the) `"default"`
subtree, the source's own explicit `"train"` entry overrides the inherited
default, and the result is the merge of the seed with the source, which
retains the source's `"default"` entry. -/
theorem claim1_fusion_example_amended :
    fuseConfig (FileSystem.mk []) [] 1 ["train", "test"] c1Source
      = Except.ok c1Actual := by
  have hinc : includeConfigs (FileSystem.mk []) [] 1 c1Source
      = Except.ok (CVal.vdict [("default", CVal.vdict [("lr", CVal.vrat 0.1)]),
                               ("train", CVal.vdict [("lr", CVal.vrat 0.01)])]) :=
    includeConfigs_noRefs (FileSystem.mk []) [] c1Source c1Source_noRefs 1
  simp only [fuseConfig, hinc, except_bind_ok]
  rw [mergeVal]
  simp [seedList, defaultOf, insertD, lookupD, mergeEntries, mergeVal, c1Actual]

/-- A filesystem on which `db.yml` parses to `{"host": "x"}`. -/
def fsDb : FileSystem :=
  FileSystem.mk [("db.yml", CVal.vdict [("host", CVal.vstr "x")])]

theorem includeConfigs_fsDb_dict :
    includeConfigs fsDb [some ""] 2 (CVal.vdict [("db", CVal.vstr "db.yml")])
      = Except.ok (CVal.vdict [("db", CVal.vdict [("host", CVal.vstr "x")])]) := by
  have hstr : includeConfigs fsDb [some ""] 2 (CVal.vstr "db.yml")
      = Except.ok (CVal.vdict [("host", CVal.vstr "x")]) := by
    rw [show (2 : Nat) = Nat.succ 1 from rfl, includeConfigs.eq_2, if_pos (by decide)]
    exact includeConfigs_noRefs _ _ _
      (noRefs_cons _ _ _ (NoFileRefs.vstr "x" (by decide)) noRefs_nil) 1
  rw [includeConfigs.eq_3, includeEntries, hstr, includeEntries]
  rfl

/-- C2 counterexample: fusing the mapping `{"db": "db.yml"}` (with
`db.yml` present on the search path) leaves the caller's mapping equal to
`{"db": {"host": "x"}}` — `_include_configs_dict` rewrote its entry in
place — so the original input mapping is not unchanged after a successful
fuse. -/
theorem claim2_fuse_mutates_source_counterexample :
    sourceAfterFuse fsDb [some ""] 2 (CVal.vdict [("db", CVal.vstr "db.yml")])
      = Except.ok (CVal.vdict [("db", CVal.vdict [("host", CVal.vstr "x")])])
    ∧ fuseConfig fsDb [some ""] 2 [] (CVal.vdict [("db", CVal.vstr "db.yml")])
      = Except.ok (CVal.vdict [("db", CVal.vdict [("host", CVal.vstr "x")])])
    ∧ CVal.vdict [("db", CVal.vdict [("host", CVal.vstr "x")])]
        ≠ CVal.vdict [("db", CVal.vstr "db.yml")] := by
  refine ⟨includeConfigs_fsDb_dict, ?_, by simp⟩
  simp only [fuseConfig, includeConfigs_fsDb_dict, except_bind_ok]
  rw [mergeVal]
  simp [seedList, defaultOf, lookupD, insertD, mergeEntries]

/-- C2 (amended): context fusion rewrites the source mapping in place
exactly as far as inclusion does — after a fuse, the caller's dict equals
the include expansion of its former value, so it is unchanged whenever it
contains no file references — and each context key missing from the
(include-expanded) source is bound in the fused result to the seeded
`"default"` subtree. -/
theorem claim2_fuse_mutation_amended :
    (∀ (fs : FileSystem) (sp : List (Option String)) (fuel : Nat)
       (m : List (String × CVal)),
      sourceAfterFuse fs sp fuel (CVal.vdict m)
        = includeConfigs fs sp fuel (CVal.vdict m)) ∧
    (∀ (fs : FileSystem) (sp : List (Option String)) (fuel : Nat) (c : CVal),
      NoFileRefs c → sourceAfterFuse fs sp fuel c = Except.ok c) ∧
    (∀ (fs : FileSystem) (sp : List (Option String)) (fuel : Nat)
       (ck : List String) (m m2 : List (String × CVal)) (k : String),
      includeConfigs fs sp fuel (CVal.vdict m) = Except.ok (CVal.vdict m2) →
      k ∈ ck →
      lookupD m2 k = none →
      fuseConfig fs sp fuel ck (CVal.vdict m)
        = Except.ok (CVal.vdict (mergeEntries (seedList ck (defaultOf m2)) m2))
      ∧ lookupD (mergeEntries (seedList ck (defaultOf m2)) m2) k
          = some (defaultOf m2)) := by
  refine ⟨fun fs sp fuel m => rfl, ?_, ?_⟩
  · intro fs sp fuel c h
    cases c with
    | vdict m => exact includeConfigs_noRefs fs sp _ h fuel
    | vnone => rfl
    | vbool b => rfl
    | vint n => rfl
    | vrat q => rfl
    | vstr s => rfl
    | vseq xs => rfl
  · intro fs sp fuel ck m m2 k hinc hk hlk
    constructor
    · simp only [fuseConfig, hinc, except_bind_ok]
      rw [mergeVal]
    · rw [lookupD_mergeEntries_not_mem _ _ _ (not_mem_of_lookupD_eq_none m2 k hlk),
        lookupD_seedList ck _ k hk]

/-- Witness for C2 at concrete inputs: a mapping without file references
is unchanged by a fuse, and with source `{"default": {"lr": 3}}` and
context keys `("train", "test")` the fused value at the absent key
`"test"` is the seeded default subtree. -/
theorem claim2_fuse_mutation_amended_witness :
    sourceAfterFuse (FileSystem.mk []) [] 1 (CVal.vdict [("a", CVal.vint 1)])
      = Except.ok (CVal.vdict [("a", CVal.vint 1)])
    ∧ fuseConfig (FileSystem.mk []) [] 1 ["train", "test"]
        (CVal.vdict [("default", CVal.vdict [("lr", CVal.vint 3)])])
      = Except.ok (CVal.vdict
          (mergeEntries
            (seedList ["train", "test"]
              (defaultOf [("default", CVal.vdict [("lr", CVal.vint 3)])]))
            [("default", CVal.vdict [("lr", CVal.vint 3)])]))
    ∧ lookupD
        (mergeEntries
          (seedList ["train", "test"]
            (defaultOf [("default", CVal.vdict [("lr", CVal.vint 3)])]))
          [("default", CVal.vdict [("lr", CVal.vint 3)])]) "test"
        = some (defaultOf [("default", CVal.vdict [("lr", CVal.vint 3)])]) := by
  have hnr : NoFileRefs (CVal.vdict [("a", CVal.vint 1)]) :=
    noRefs_cons _ _ _ (NoFileRefs.vint _) noRefs_nil
  have hnr2 : NoFileRefs (CVal.vdict [("default", CVal.vdict [("lr", CVal.vint 3)])]) :=
    noRefs_cons _ _ _ (noRefs_cons _ _ _ (NoFileRefs.vint _) noRefs_nil) noRefs_nil
  have h3 := claim2_fuse_mutation_amended.2.2 (FileSystem.mk []) [] 1
    ["train", "test"] _ _ "test" (includeConfigs_noRefs _ _ _ hnr2 1)
    (by decide) rfl
  exact ⟨claim2_fuse_mutation_amended.2.1 _ _ 1 _ hnr, h3.1, h3.2⟩

/-- A filesystem with a chained inclusion: `a.yml` parses to the string
`"b.yml"`, which names a second file parsing to `{"host": "x"}`. -/
def fsChain : FileSystem :=
  FileSystem.mk [("a.yml", CVal.vstr "b.yml"),
                 ("b.yml", CVal.vdict [("host", CVal.vstr "x")])]

/-- C4: a string with a `_FILE_READERS` suffix is resolved against the
search paths in order (first hit wins, `ConfigNotFoundError` when the file
exists nowhere) and its parsed content is recursively included (chained
inclusion resolves fully, as the concrete `a.yml` → `b.yml` chain shows);
a string with any other suffix, any other scalar, and any sequence is
returned unchanged. -/
theorem claim4_include_resolution :
    (∀ (fs : FileSystem) (sp : List (Option String)) (f : Nat) (s p : String),
      pathSuffix s ∈ fileReaderExts →
      searchConfig fs s sp = Except.ok p →
      includeConfigs fs sp (Nat.succ f) (CVal.vstr s)
        = includeConfigs fs sp f ((fsLookup fs p).getD CVal.vnone)) ∧
    (∀ (fs : FileSystem) (sp : List (Option String)) (f : Nat) (s : String),
      pathSuffix s ∈ fileReaderExts →
      (∀ d, some d ∈ sp → fsExists fs (joinPath d s) = false) →
      includeConfigs fs sp (Nat.succ f) (CVal.vstr s)
        = Except.error (CErr.configNotFound s)) ∧
    (∀ (fs : FileSystem) (name : String) (pre post : List (Option String)) (d : String),
      (∀ d2, some d2 ∈ pre → fsExists fs (joinPath d2 name) = false) →
      fsExists fs (joinPath d name) = true →
      searchConfig fs name (pre ++ some d :: post) = Except.ok (joinPath d name)) ∧
    (∀ (fs : FileSystem) (sp : List (Option String)) (f : Nat) (s : String),
      pathSuffix s ∉ fileReaderExts →
      includeConfigs fs sp f (CVal.vstr s) = Except.ok (CVal.vstr s)) ∧
    (∀ (fs : FileSystem) (sp : List (Option String)) (f : Nat),
      (∀ n, includeConfigs fs sp f (CVal.vint n) = Except.ok (CVal.vint n))
      ∧ (∀ b, includeConfigs fs sp f (CVal.vbool b) = Except.ok (CVal.vbool b))
      ∧ includeConfigs fs sp f CVal.vnone = Except.ok CVal.vnone
      ∧ (∀ q, includeConfigs fs sp f (CVal.vrat q) = Except.ok (CVal.vrat q))
      ∧ (∀ xs, includeConfigs fs sp f (CVal.vseq xs) = Except.ok (CVal.vseq xs))) ∧
    includeConfigs fsChain [some ""] 2 (CVal.vstr "a.yml")
      = Except.ok (CVal.vdict [("host", CVal.vstr "x")]) := by
  refine ⟨?_, ?_, searchConfig_first_hit, ?_, ?_, ?_⟩
  · intro fs sp f s p hsuf hsearch
    rw [includeConfigs.eq_2, if_pos hsuf, hsearch]
  · intro fs sp f s hsuf hnone
    rw [includeConfigs.eq_2, if_pos hsuf, searchConfig_not_found fs s sp hnone]
  · intro fs sp f s hsuf
    cases f with
    | zero => rw [includeConfigs.eq_1, if_neg hsuf]
    | succ f2 => rw [includeConfigs.eq_2, if_neg hsuf]
  · intro fs sp f
    exact ⟨fun n => includeConfigs_noRefs fs sp _ (NoFileRefs.vint n) f,
      fun b => includeConfigs_noRefs fs sp _ (NoFileRefs.vbool b) f,
      includeConfigs_noRefs fs sp _ NoFileRefs.vnone f,
      fun q => includeConfigs_noRefs fs sp _ (NoFileRefs.vrat q) f,
      fun xs => includeConfigs_noRefs fs sp _ (NoFileRefs.vseq xs) f⟩
  · have hb : includeConfigs fsChain [some ""] 1 (CVal.vstr "b.yml")
        = Except.ok (CVal.vdict [("host", CVal.vstr "x")]) := by
      rw [show (1 : Nat) = Nat.succ 0 from rfl, includeConfigs.eq_2, if_pos (by decide)]
      exact includeConfigs_noRefs _ _ _
        (noRefs_cons _ _ _ (NoFileRefs.vstr "x" (by decide)) noRefs_nil) 0
    rw [show (2 : Nat) = Nat.succ 1 from rfl, includeConfigs.eq_2, if_pos (by decide)]
    exact hb

/-- Witness for C4 at concrete inputs: one resolution step on the chained
filesystem, a `ConfigNotFoundError` on the empty filesystem, a first-hit
resolution past a non-matching search path, and an unchanged string with an
unrecognized suffix. -/
theorem claim4_include_resolution_witness :
    includeConfigs fsChain [some ""] (Nat.succ 1) (CVal.vstr "a.yml")
      = includeConfigs fsChain [some ""] 1 ((fsLookup fsChain "a.yml").getD CVal.vnone)
    ∧ includeConfigs (FileSystem.mk []) [some ""] (Nat.succ 0) (CVal.vstr "db.yml")
      = Except.error (CErr.configNotFound "db.yml")
    ∧ searchConfig fsChain "a.yml" ([some "zz"] ++ some "" :: [])
      = Except.ok (joinPath "" "a.yml")
    ∧ includeConfigs fsChain [some ""] 3 (CVal.vstr "a.txt")
      = Except.ok (CVal.vstr "a.txt") := by
  refine ⟨claim4_include_resolution.1 fsChain [some ""] 1 "a.yml" "a.yml"
      (by decide) rfl,
    claim4_include_resolution.2.1 (FileSystem.mk []) [some ""] 0 "db.yml"
      (by decide) ?_,
    claim4_include_resolution.2.2.1 fsChain "a.yml" [some "zz"] [] ""
      ?_ rfl,
    claim4_include_resolution.2.2.2.1 fsChain [some ""] 3 "a.txt" (by decide)⟩
  · intro d hd
    simp only [List.mem_singleton, Option.some.injEq] at hd
    subst hd
    rfl
  · intro d2 hd2
    simp only [List.mem_singleton, Option.some.injEq] at hd2
    subst hd2
    rfl

theorem except_seq_bind_ok {ε α β : Type} (x : α) (f : α → Except ε β) :
    ((Except.ok x : Except ε α) >>= f) = f x := rfl

theorem except_seq_bind_error {ε α β : Type} (e : ε) (f : α → Except ε β) :
    ((Except.error e : Except ε α) >>= f) = Except.error e := rfl

theorem except_mapM_nil {ε α β : Type} (f : α → Except ε β) :
    List.mapM f ([] : List α) = Except.ok [] := rfl

/-- C6: a `read` call whose user config — parsed mapping or file path —
lacks a top-level entry for the reader's name fails with the missing-named-
section `KeyError`; when the entry is present only the sub-tree under the
name is used; an absent user config is normalized to the empty mapping. -/
theorem claim6_user_config_named_section :
    (∀ (r : ConfigReader) (fs : FileSystem) (argv : List String) (fuel : Nat)
       (m : List (String × CVal)) (sc : CVal),
      readStructured fs r.mainConfigPath = Except.ok sc →
      lookupD m r.name = none →
      readerRead r fs argv (UserConfig.parsed m) [] fuel
        = Except.error (CErr.missingKey r.name)) ∧
    (∀ (r : ConfigReader) (fs : FileSystem) (argv : List String) (fuel : Nat)
       (p : String) (mu : List (String × CVal)) (sc : CVal),
      readStructured fs r.mainConfigPath = Except.ok sc →
      readStructured fs p = Except.ok (CVal.vdict mu) →
      lookupD mu r.name = none →
      readerRead r fs argv (UserConfig.path p) [] fuel
        = Except.error (CErr.missingKey r.name)) ∧
    (∀ (name : String) (fs : FileSystem) (m : List (String × CVal)) (v : CVal),
      lookupD m name = some v →
      readUserConfig name fs (UserConfig.parsed m) = Except.ok v) ∧
    (∀ (name : String) (fs : FileSystem) (p : String)
       (mu : List (String × CVal)) (v : CVal),
      readStructured fs p = Except.ok (CVal.vdict mu) →
      lookupD mu name = some v →
      readUserConfig name fs (UserConfig.path p) = Except.ok v) ∧
    (∀ (name : String) (fs : FileSystem),
      readUserConfig name fs UserConfig.absent = Except.ok (CVal.vdict [])) := by
  refine ⟨?_, ?_, ?_, ?_, fun name fs => rfl⟩
  · intro r fs argv fuel m sc hmain hlk
    simp only [readerRead, hmain, readUserConfig, hlk, except_mapM_nil,
      except_seq_bind_ok, except_seq_bind_error]
  · intro r fs argv fuel p mu sc hmain hup hlk
    simp only [readerRead, hmain, readUserConfig, hup, hlk, except_mapM_nil,
      except_seq_bind_ok, except_seq_bind_error]
  · intro name fs m v hlk
    simp only [readUserConfig, hlk]
  · intro name fs p mu v hup hlk
    simp only [readUserConfig, hup, hlk]

/-- The filesystem of the C6 witness: a main config and a user config file
holding a section for a different reader name. -/
def fs6 : FileSystem :=
  FileSystem.mk [("configs/config.yml", CVal.vdict []),
                 ("user.yml", CVal.vdict [("other", CVal.vdict [])])]

/-- The constructed reader of the C6 and C8 witnesses. -/
def reader6 : ConfigReader :=
  { name := "model", mainConfigPath := "configs/config.yml",
    defaultKey := "default", contextKeys := [], searchPaths := [],
    configsFolder := "configs", presetsFolder := "configs/presets" }

/-- Witness for C6 at concrete inputs: a parsed user config and a user
config file both lacking the section `"model"` fail the `read` call, a
present section is extracted, and an absent user config reads as the empty
mapping. -/
theorem claim6_user_config_named_section_witness :
    readerRead reader6 fs6 [] (UserConfig.parsed [("other", CVal.vdict [])]) [] 1
      = Except.error (CErr.missingKey "model")
    ∧ readerRead reader6 fs6 [] (UserConfig.path "user.yml") [] 1
      = Except.error (CErr.missingKey "model")
    ∧ readUserConfig "model" fs6
        (UserConfig.parsed [("model", CVal.vint 1)]) = Except.ok (CVal.vint 1)
    ∧ readUserConfig "model" fs6 UserConfig.absent = Except.ok (CVal.vdict []) :=
  ⟨claim6_user_config_named_section.1 reader6 fs6 [] 1
      [("other", CVal.vdict [])] (CVal.vdict []) rfl rfl,
   claim6_user_config_named_section.2.1 reader6 fs6 [] 1 "user.yml"
      [("other", CVal.vdict [])] (CVal.vdict []) rfl rfl rfl,
   claim6_user_config_named_section.2.2.1 "model" fs6
      [("model", CVal.vint 1)] (CVal.vint 1) rfl,
   claim6_user_config_named_section.2.2.2.2 "model" fs6⟩

/-- C7: the CLI token `"a.b.c=5"` builds the nested mapping
`{"a": {"b": {"c": 5}}}` with `5` as an integer, the token `"a.b=hello"`
builds `{"a": {"b": "hello"}}` with a plain string via the quoted
re-evaluation fallback, and the merged CLI mapping is filtered to the
reader's name sub-tree, an absent name yielding the empty mapping rather
than an error. -/
theorem claim7_cli_token_parsing :
    createDictFromKeys ["a", "b", "c"] "5"
      = Except.ok (CVal.vdict [("a", CVal.vdict [("b", CVal.vdict [("c", CVal.vint 5)])])])
    ∧ createDictFromKeys ["a", "b"] "hello"
      = Except.ok (CVal.vdict [("a", CVal.vdict [("b", CVal.vstr "hello")])])
    ∧ readCli "model" ["a.b.c=5"] = Except.ok (CVal.vdict [])
    ∧ readCli "a" ["a.b.c=5"]
      = Except.ok (CVal.vdict [("b", CVal.vdict [("c", CVal.vint 5)])]) := by
  have hd : cliDicts ["a.b.c=5"]
      = Except.ok [CVal.vdict [("a", CVal.vdict [("b", CVal.vdict [("c", CVal.vint 5)])])]] := rfl
  refine ⟨rfl, rfl, ?_, ?_⟩
  · simp only [readCli, hd]
    simp [mergeAll, mergeVal, mergeEntries, lookupD, insertD, cvalGet]
  · simp only [readCli, hd]
    simp [mergeAll, mergeVal, mergeEntries, lookupD, insertD, cvalGet]

/-- C8: CLI values whose first literal evaluation raises `SyntaxError`
(internal whitespace, or an internal single quote) are not caught by the
`except ValueError` fallback, and the error propagates out of the whole
`read` call; a token with more than one `=` likewise fails `read` with the
unpacking error. -/
theorem claim8_cli_eval_error_propagation :
    litEval "hello world" = Except.error LitErr.synErr
    ∧ litEval ("it" ++ String.singleton squote ++ "s") = Except.error LitErr.synErr
    ∧ readerRead reader6 fs6 ["a=hello world"] UserConfig.absent [] 1
      = Except.error (CErr.evalError "hello world")
    ∧ readerRead reader6 fs6 ["a=it" ++ String.singleton squote ++ "s"]
        UserConfig.absent [] 1
      = Except.error (CErr.evalError ("it" ++ String.singleton squote ++ "s"))
    ∧ readerRead reader6 fs6 ["a=b=c"] UserConfig.absent [] 1
      = Except.error (CErr.unpackError "a=b=c") :=
  ⟨rfl, rfl, rfl, rfl, rfl⟩

end Dicfg
